import Mathlib

/-!
A shallow embedding of the Equalizer parallel-rendering framework
(server-side window controller, net node messaging, reference-counted
pointers, and the eqPly example channel), together with proofs of the
behavioural properties stated in the specification.

Sources embedded:
* src/lib/base/refPtr.h        — RefPtr assignment semantics
* src/lib/net/node.h           — Node state machine, checkConnection, send
* src/server/window.cpp        — server Window: viewports, swap barriers,
                                 init/exit sync, per-frame update
* src/examples/eqPly/channel.cpp — frameClear colour choice, _drawModel
                                 range-based tree traversal

Machine floats of the source (viewport fractions, ranges, colours) are
embedded as exact rationals: every comparison the claims depend on involves
only values that are exactly representable in both float and Rat.
-/

namespace Equalizer

/-! ## RefPtr (src/lib/base/refPtr.h)

The pointee is identified by a numeric id; NULL is represented by `none`.
`ref()`/`unref()` calls on pointees are recorded as an event trace so that
both their effect on reference counts and their order are observable. -/

/-- A `ref` or `unref` call performed on the pointee with the given id. -/
inductive RefEvent where
  | ref (p : Nat)
  | unref (p : Nat)
deriving DecidableEq, Repr

/-- RefPtr::operator= (both overloads share this body): if the held pointer
already equals the assigned one, return immediately; otherwise remember the
old pointer, install the new one, `ref()` the new pointee, then `unref()`
the old one.  Returns the new held pointer and the pointee-call trace in
order of execution. -/
def refPtrAssign (cur : Option Nat) (rhs : Option Nat) :
    Option Nat × List RefEvent :=
  if cur = rhs then
    (cur, [])
  else
    let refEvents : List RefEvent :=
      match rhs with
      | none => []
      | some p => [RefEvent.ref p]
    let unrefEvents : List RefEvent :=
      match cur with
      | none => []
      | some p => [RefEvent.unref p]
    (rhs, refEvents ++ unrefEvents)

/-- Effect of a pointee-call trace on the reference counts. -/
def applyRefEvents (counts : Nat → Int) : List RefEvent → (Nat → Int)
  | [] => counts
  | RefEvent.ref p :: rest =>
      applyRefEvents (fun q => if q = p then counts q + 1 else counts q) rest
  | RefEvent.unref p :: rest =>
      applyRefEvents (fun q => if q = p then counts q - 1 else counts q) rest

/-- `true` exactly on `ref` events. -/
def RefEvent.isRef : RefEvent → Bool
  | RefEvent.ref _ => true
  | RefEvent.unref _ => false

/-! ## Net node (src/lib/net/node.h)

The node states and the inline member functions `checkConnection`, `send`
and its payload variants.  The bodies of `connect`, `initConnect` and
`syncConnect` live in node.cpp, which is not part of the embedded sources;
they are modelled from the specification below.  The number of bytes the
underlying connection reports as written is an oracle parameter. -/

/-- Node::State. -/
inductive NodeState where
  | stopped
  | launched
  | connected
  | listening
deriving DecidableEq, Repr

/-- Modelled from the spec: the body of `Node::connect()` (node.cpp) is not
among the embedded sources.  Per the specification and the header
documentation, on success the node is in the connected state, otherwise its
state is unchanged; the outcome of the connection attempt is the oracle
parameter `ok`.  Returns (success, new state). -/
def nodeConnect (st : NodeState) (ok : Bool) : Bool × NodeState :=
  (ok, if ok then NodeState.connected else st)

/-- Modelled from the spec: the body of `Node::initConnect()` (node.cpp) is
not among the embedded sources.  Per the header documentation, on success
the node is in the launched or connected state, otherwise its state is
unchanged.  `outcome = none` is failure; `some true` ends connected,
`some false` ends launched. -/
def nodeInitConnect (st : NodeState) (outcome : Option Bool) :
    Bool × NodeState :=
  match outcome with
  | none => (false, st)
  | some c => (true, if c then NodeState.connected else NodeState.launched)

/-- Modelled from the spec: the body of `Node::syncConnect()` (node.cpp) is
not among the embedded sources.  Per the header documentation, on success
the node is in the connected state, otherwise its state is unchanged. -/
def nodeSyncConnect (st : NodeState) (ok : Bool) : Bool × NodeState :=
  (ok, if ok then NodeState.connected else st)

/-- Node::checkConnection (inline in node.h): connected or listening nodes
answer true immediately; a stopped node attempts a full `connect()`; any
other state (launched) answers false.  The third component records whether
a `connect()` was attempted. -/
def checkConnection (st : NodeState) (connectOk : Bool) :
    Bool × NodeState × Bool :=
  if st = NodeState.connected ∨ st = NodeState.listening then
    (true, st, false)
  else if st = NodeState.stopped then
    let r := nodeConnect st connectOk
    (r.1, r.2, true)
  else
    (false, st, false)

/-- Node::send(const Packet&) (inline in node.h): ensure connectivity, then
require the connection-level send to write exactly `size` bytes.  `written`
is the byte count reported by `_connection->send`. -/
def nodeSend (st : NodeState) (connectOk : Bool) (written size : Nat) :
    Bool × NodeState :=
  match checkConnection st connectOk with
  | (false, st', _) => (false, st')
  | (true, st', _) => (decide (written = size), st')

/-- Node::send with a string / vector / raw-data payload (inline in
node.h): the payload is appended to the packet and sent as one frame, so
the connection-level send must write at least `size` bytes. -/
def nodeSendPayload (st : NodeState) (connectOk : Bool)
    (written size : Nat) : Bool × NodeState :=
  match checkConnection st connectOk with
  | (false, st', _) => (false, st')
  | (true, st', _) => (decide (written ≥ size), st')

/-! ## Viewports

`eq::PixelViewport` and `eq::Viewport` are declared in client headers that
are not among the embedded sources.  They are modelled from the spec: a
pixel viewport is an integer rectangle, a viewport a fractional rectangle;
a viewport is valid when its size is non-negative, `invalidate` gives it a
negative size, division of a pixel viewport by the pipe's pixel viewport
yields the fractional viewport and multiplication the converse. -/

/-- Integer pixel rectangle (origin and size). -/
structure PixelViewport where
  x : Int
  y : Int
  w : Int
  h : Int
deriving DecidableEq, Repr

/-- PixelViewport::isValid. -/
def PixelViewport.isValid (p : PixelViewport) : Bool :=
  decide (0 ≤ p.w ∧ 0 ≤ p.h)

/-- PixelViewport::invalidate. -/
def PixelViewport.invalidate (_p : PixelViewport) : PixelViewport :=
  ⟨0, 0, -1, -1⟩

/-- Fractional rectangle relative to the parent. -/
structure Viewport where
  x : Rat
  y : Rat
  w : Rat
  h : Rat
deriving DecidableEq, Repr

/-- Viewport::isValid. -/
def Viewport.isValid (v : Viewport) : Bool :=
  decide (0 ≤ v.w ∧ 0 ≤ v.h)

/-- Viewport::invalidate. -/
def Viewport.invalidate (_v : Viewport) : Viewport :=
  ⟨0, 0, -1, -1⟩

/-- `pvp / pipePVP`: the fraction of the pipe's pixel viewport covered. -/
def pvpDiv (pvp pipePVP : PixelViewport) : Viewport :=
  ⟨(pvp.x - pipePVP.x : Int) / (pipePVP.w : Rat),
   (pvp.y - pipePVP.y : Int) / (pipePVP.h : Rat),
   (pvp.w : Rat) / (pipePVP.w : Rat),
   (pvp.h : Rat) / (pipePVP.h : Rat)⟩

/-- `pipePVP * vp`: the pixel sub-rectangle selected by a fraction. -/
def pvpMul (pipePVP : PixelViewport) (vp : Viewport) : PixelViewport :=
  ⟨pipePVP.x + ((pipePVP.w : Rat) * vp.x).floor,
   pipePVP.y + ((pipePVP.h : Rat) * vp.y).floor,
   ((pipePVP.w : Rat) * vp.w).floor,
   ((pipePVP.h : Rat) * vp.h).floor⟩

/-! ## Server window (src/server/window.cpp)

The window's channels are embedded with the data the window code reads
from them.  The server-side Channel implementation is not among the
embedded sources, so the boolean a channel's own `syncInit`/`syncExit`
returns is carried as a recorded field of the channel, and the window's
own pending request result (served through the RequestHandler by
`_cmdInitReply`/`_cmdExitReply`) is an oracle parameter of the sync
functions. -/

/-- Channel states as read by the window code. -/
inductive ChannelState where
  | stopped
  | initialising
  | running
  | stopping
deriving DecidableEq, Repr

/-- Window states (`Window::_state`). -/
inductive WindowState where
  | stopped
  | initialising
  | running
  | stopping
deriving DecidableEq, Repr

/-- A server-side channel, seen from its window: whether a compound uses
it, its state, and the results its own split-phase syncs return. -/
structure Channel where
  id : Nat
  used : Bool
  state : ChannelState
  initResult : Bool
  exitResult : Bool
deriving DecidableEq, Repr

/-- A server-side window.  The pipe pointer is represented by the only
datum the embedded code reads through it, the pipe's pixel viewport
(`none` when the window has no pipe).  Barriers are identified by numeric
ids into a shared `BarrierStore`. -/
structure Window where
  name : String
  pvp : PixelViewport
  vp : Viewport
  pipe : Option PixelViewport
  used : Nat
  state : WindowState
  pendingRequest : Option Nat
  channels : List Channel
  masterSwapBarriers : List Nat
  swapBarriers : List Nat
deriving DecidableEq, Repr

/-- Window::setPixelViewport: ignore invalid input; otherwise install the
pixel viewport, invalidate the fractional viewport, and recompute it from
the pipe's pixel viewport when there is a pipe with a valid one. -/
def Window.setPixelViewport (win : Window) (pvp : PixelViewport) : Window :=
  if !pvp.isValid then
    win
  else
    let win := { win with pvp := pvp, vp := win.vp.invalidate }
    match win.pipe with
    | none => win
    | some pipePVP =>
        if pipePVP.isValid then { win with vp := pvpDiv pvp pipePVP }
        else win

/-- Window::setViewport: ignore invalid input; otherwise install the
fractional viewport, invalidate the pixel viewport, and recompute it from
the pipe's pixel viewport (taken at origin) when there is a pipe with a
valid one. -/
def Window.setViewport (win : Window) (vp : Viewport) : Window :=
  if !vp.isValid then
    win
  else
    let win := { win with vp := vp, pvp := win.pvp.invalidate }
    match win.pipe with
    | none => win
    | some pipePVP =>
        if pipePVP.isValid then
          { win with pvp := pvpMul { pipePVP with x := 0, y := 0 } vp }
        else win

/-- The window fields `setPixelViewport`/`setViewport` never touch. -/
def Window.sameButViewports (w w' : Window) : Prop :=
  w.name = w'.name ∧ w.pipe = w'.pipe ∧ w.used = w'.used ∧
  w.state = w'.state ∧ w.pendingRequest = w'.pendingRequest ∧
  w.channels = w'.channels ∧
  w.masterSwapBarriers = w'.masterSwapBarriers ∧
  w.swapBarriers = w'.swapBarriers

/-! ### Swap barriers -/

/-- The shared store of `eqNet::Barrier` objects, keyed by id: the
participant count (`Barrier::increase` bumps it) and the version
(`commit` publishes a new one). -/
structure BarrierStore where
  counts : Nat → Nat
  versions : Nat → Nat
  nextId : Nat

/-- Modelled from the spec: `Node::getBarrier` (net layer, not among the
embedded sources) allocates a fresh barrier; per the spec the participant
count starts at zero and `increase()` bumps it before use. -/
def BarrierStore.getBarrier (s : BarrierStore) : BarrierStore × Nat :=
  ({ counts := fun i => if i = s.nextId then 0 else s.counts i,
     versions := fun i => if i = s.nextId then 0 else s.versions i,
     nextId := s.nextId + 1 },
   s.nextId)

/-- Modelled from the spec: `eqNet::Barrier::commit` (net layer, not among
the embedded sources) assigns the next version. -/
def BarrierStore.commit (s : BarrierStore) (b : Nat) : BarrierStore :=
  { s with versions := fun i => if i = b then s.versions i + 1 else s.versions i }

/-- Window::addSwapBarrier: `barrier->increase()` then push the barrier on
the inbound swap-barrier list. -/
def Window.addSwapBarrier (win : Window) (s : BarrierStore) (b : Nat) :
    BarrierStore × Window :=
  ({ s with counts := fun i => if i = b then s.counts i + 1 else s.counts i },
   { win with swapBarriers := win.swapBarriers ++ [b] })

/-- Window::newSwapBarrier: allocate a fresh barrier, record it as a
master barrier, and immediately add the creating window via
`addSwapBarrier`.  Returns the new store, window and barrier id. -/
def Window.newSwapBarrier (win : Window) (s : BarrierStore) :
    BarrierStore × Window × Nat :=
  let sb := s.getBarrier
  let win := { win with masterSwapBarriers := win.masterSwapBarriers ++ [sb.2] }
  let sw := win.addSwapBarrier sb.1 sb.2
  (sw.1, sw.2, sb.2)

/-- Adds the same barrier to every window of a swap group in turn, as the
planner does when it forms an equivalence class. -/
def addSwapBarrierAll (s : BarrierStore) (ws : List Window) (b : Nat) :
    BarrierStore × List Window :=
  match ws with
  | [] => (s, [])
  | w :: rest =>
      let sw := w.addSwapBarrier s b
      let srest := addSwapBarrierAll sw.1 rest b
      (srest.1, sw.2 :: srest.2)

/-! ### Split-phase init / exit sync -/

/-- Window::syncInit: sync every used channel (a failure makes the whole
init fail), then wait for the window's own pending init request — `own` is
the boolean the RequestHandler delivers for it.  On success the window
enters STATE_RUNNING; the pending request id is cleared either way. -/
def Window.syncInit (win : Window) (own : Bool) : Bool × Window :=
  let success := win.channels.foldl
    (fun acc c => if c.used && !c.initResult then false else acc) true
  let success := success && own
  let win := { win with pendingRequest := none }
  if success then (true, { win with state := WindowState.running })
  else (false, win)

/-- Window::syncExit: wait for the window's own exit request (`own` is the
delivered boolean), then sync every stopping channel, each failure failing
the whole exit.  The destroy-channel packets and the deregistration it
performs per stopping channel are I/O towards the render node and the
config and do not affect the result or the window state; the window ends
in STATE_STOPPED unconditionally. -/
def Window.syncExit (win : Window) (own : Bool) : Bool × Window :=
  let success := win.channels.foldl
    (fun acc c =>
      if c.state == ChannelState.stopping && !c.exitResult then false
      else acc) own
  (success, { win with pendingRequest := none, state := WindowState.stopped })

/-! ### Per-frame update (packet traces) -/

/-- The window-level packets `Window::update`/`_updateSwap` send to the
render node.  `channelUpdate` stands for the packets a used channel's own
`update` emits (the server Channel implementation is not among the
embedded sources). -/
inductive WPacket where
  | startFrame (frameID : Nat) (makeCurrent : Bool)
  | channelUpdate (channel : Nat) (frameID : Nat)
  | finish
  | barrier (id : Nat) (version : Nat)
  | swap
  | endFrame (frameID : Nat)
deriving DecidableEq, Repr

/-- One step of the per-frame window update: either a commit of a master
barrier (a net-object commit, not a window packet) or a sent packet. -/
inductive SwapEvent where
  | commit (b : Nat)
  | packet (p : WPacket)
deriving DecidableEq, Repr

/-- Extracts the packets actually sent from an event trace. -/
def packetsOf (tr : List SwapEvent) : List WPacket :=
  tr.filterMap fun e =>
    match e with
    | SwapEvent.commit _ => none
    | SwapEvent.packet p => some p

/-- Recognises a WINDOW_BARRIER (barrier-enter) packet for barrier `b`,
whatever version it carries. -/
def isBarrierPacket (b : Nat) : SwapEvent → Bool
  | SwapEvent.packet (WPacket.barrier b' _) => b' == b
  | _ => false

/-- Window::_updateSwap: commit every outbound (master) barrier; if the
inbound swap-barrier list is non-empty send one WINDOW_FINISH packet; send
one WINDOW_BARRIER packet per inbound barrier, carrying the barrier's id
and its version after the commits; finally send the WINDOW_SWAP packet. -/
def Window.updateSwap (win : Window) (s : BarrierStore) :
    BarrierStore × List SwapEvent :=
  let s := win.masterSwapBarriers.foldl BarrierStore.commit s
  (s,
   win.masterSwapBarriers.map SwapEvent.commit
   ++ (if win.swapBarriers = [] then []
       else [SwapEvent.packet WPacket.finish])
   ++ win.swapBarriers.map
        (fun b => SwapEvent.packet (WPacket.barrier b (s.versions b)))
   ++ [SwapEvent.packet WPacket.swap])

/-- Window::update: send WINDOW_START_FRAME (make-current when the pipe
has more than one window), update every used channel, run `_updateSwap`,
and send WINDOW_END_FRAME. -/
def Window.update (win : Window) (s : BarrierStore) (frameID : Nat)
    (nPipeWindows : Nat) : BarrierStore × List SwapEvent :=
  let startEvent :=
    SwapEvent.packet (WPacket.startFrame frameID (decide (nPipeWindows > 1)))
  let channelEvents :=
    (win.channels.filter (fun c => c.used)).map
      (fun c => SwapEvent.packet (WPacket.channelUpdate c.id frameID))
  let sw := win.updateSwap s
  (sw.1,
   startEvent :: channelEvents ++ sw.2
   ++ [SwapEvent.packet (WPacket.endFrame frameID)])

/-! ## eqPly example channel (src/examples/eqPly/channel.cpp) -/

/-- An RGBA colour; the float components of the source are exact here. -/
structure Color where
  r : Rat
  g : Rat
  b : Rat
  a : Rat
deriving DecidableEq, Repr

/-- Channel::frameClear colour choice, in a debug build (the
EQ_TAINT_CHANNELS branch is compiled only when NDEBUG is undefined):
the destination channel of the currently active view clears grey; else,
with EQ_TAINT_CHANNELS set in the environment, the channel's unique colour
(byte components scaled to [0,1]); else black.
`hasView` is whether `getView()` is non-null, `viewID`/`currentViewID`
the view's and the FrameData's current view id, `taint` whether the
environment variable is set, and `ur`/`ug`/`ub` the unique colour bytes. -/
def frameClearColor (hasView : Bool) (viewID currentViewID : Nat)
    (taint : Bool) (ur ug ub : Nat) : Color :=
  if hasView && currentViewID == viewID then
    ⟨2/5, 2/5, 2/5, 1⟩
  else if taint then
    ⟨(ur : Rat)/255, (ug : Rat)/255, (ub : Rat)/255, 1⟩
  else
    ⟨0, 0, 0, 1⟩

/-! ### _drawModel: range-driven kd-tree traversal

The model is a binary tree of `VertexBufferBase` nodes, each carrying its
range `[lo, hi)` and — standing for `culler.testSphere` on its bounding
sphere — its view-frustum visibility.  The traversal keeps an explicit
stack whose head is the back of the source's `candidates` vector, and
returns the ids of the nodes it renders, in order. -/

/-- vmml::Visibility as used by the traversal (`mixed` embeds
VISIBILITY_PARTIAL, `invisible` VISIBILITY_NONE). -/
inductive Visibility where
  | full
  | mixed
  | invisible
deriving DecidableEq, Repr

/-- A node of the model's kd-tree. -/
inductive VBNode where
  | node (id : Nat) (lo hi : Rat) (vis : Visibility)
         (left : Option VBNode) (right : Option VBNode)

/-- eq::Range: the channel's half-open share `[start, stop)` of the
sort-last workload. -/
structure MRange where
  start : Rat
  stop : Rat
deriving DecidableEq, Repr

/-- eq::Range::ALL. -/
def MRange.ALL : MRange := ⟨0, 1⟩

/-- The traversal's completely-out-of-range test:
`treeNode->getRange()[0] >= range.end || treeNode->getRange()[1] < range.start`. -/
def rangeExcluded (lo hi : Rat) (r : MRange) : Bool :=
  decide (lo ≥ r.stop ∨ hi < r.start)

/-- Pushing a possibly-null child pointer on the candidate stack. -/
def optToStack : Option VBNode → List VBNode
  | none => []
  | some t => [t]

mutual

/-- Weight of a node (for the traversal's termination measure). -/
def VBNode.weight : VBNode → Nat
  | VBNode.node _ _ _ _ l r => 1 + optWeight l + optWeight r

/-- Weight of a possibly-null child pointer. -/
def optWeight : Option VBNode → Nat
  | none => 0
  | some t => VBNode.weight t

end

/-- Total weight of a candidate stack. -/
def stackWeight : List VBNode → Nat
  | [] => 0
  | t :: rest => t.weight + stackWeight rest

theorem stackWeight_append (a b : List VBNode) :
    stackWeight (a ++ b) = stackWeight a + stackWeight b := by
  induction a with
  | nil => simp [stackWeight]
  | cons t rest ih => simp [stackWeight, ih]; omega

theorem stackWeight_optToStack (o : Option VBNode) :
    stackWeight (optToStack o) = optWeight o := by
  cases o <;> simp [optToStack, stackWeight, optWeight]

theorem VBNode.one_le_weight (t : VBNode) : 1 ≤ t.weight := by
  cases t with
  | node i lo hi vis l r => simp [VBNode.weight]; omega

theorem stackWeight_tail_lt (t : VBNode) (rest : List VBNode) :
    stackWeight rest < stackWeight (t :: rest) := by
  have h := t.one_le_weight
  simp only [stackWeight]
  omega

theorem stackWeight_children_lt (i : Nat) (lo hi : Rat) (vis : Visibility)
    (l rt : Option VBNode) (rest : List VBNode) :
    stackWeight (optToStack rt ++ optToStack l ++ rest) <
      stackWeight (VBNode.node i lo hi vis l rt :: rest) := by
  simp only [stackWeight, stackWeight_append, stackWeight_optToStack,
    VBNode.weight]
  omega

/-- The `while( !candidates.empty( ))` loop of Channel::_drawModel: pop the
top candidate; skip it if completely out of range; otherwise branch on its
visibility — fully visible nodes render immediately when the channel range
is ALL or the node's range is contained in it, and otherwise fall through
to the partial-visibility handling, which renders a leaf exactly when its
range start lies in the channel range and pushes the children of an inner
node (left first, so the right child is visited first).  Returns the ids
of the rendered nodes. -/
def drawLoop (r : MRange) : List VBNode → List Nat
  | [] => []
  | VBNode.node i lo hi vis l rt :: rest =>
    if rangeExcluded lo hi r then
      drawLoop r rest
    else
      match vis with
      | Visibility.invisible => drawLoop r rest
      | Visibility.full =>
        if r = MRange.ALL ∨ (lo ≥ r.start ∧ hi < r.stop) then
          i :: drawLoop r rest
        else
          match l, rt with
          | none, none =>
              if lo ≥ r.start then i :: drawLoop r rest
              else drawLoop r rest
          | l', rt' => drawLoop r (optToStack rt' ++ optToStack l' ++ rest)
      | Visibility.mixed =>
          match l, rt with
          | none, none =>
              if lo ≥ r.start then i :: drawLoop r rest
              else drawLoop r rest
          | l', rt' => drawLoop r (optToStack rt' ++ optToStack l' ++ rest)
  termination_by stack => stackWeight stack
  decreasing_by
  all_goals first
  | exact stackWeight_tail_lt _ _
  | exact stackWeight_children_lt _ _ _ _ _ _ _

/-! ## Helper lemmas -/

theorem foldl_and_init (l : List Channel) (acc : Bool) :
    l.foldl (fun a c => if c.used && !c.initResult then false else a) acc
      = (acc && l.all fun c => !c.used || c.initResult) := by
  induction l generalizing acc with
  | nil => simp
  | cons c rest ih =>
      simp only [List.foldl_cons, List.all_cons, ih]
      have h : (if c.used && !c.initResult then false else acc)
          = (acc && (!c.used || c.initResult)) := by
        cases c.used <;> cases c.initResult <;> cases acc <;> simp
      rw [h, Bool.and_assoc]

theorem foldl_and_exit (l : List Channel) (acc : Bool) :
    l.foldl
      (fun a c =>
        if c.state == ChannelState.stopping && !c.exitResult then false
        else a) acc
      = (acc && l.all fun c =>
          !(c.state == ChannelState.stopping) || c.exitResult) := by
  induction l generalizing acc with
  | nil => simp
  | cons c rest ih =>
      simp only [List.foldl_cons, List.all_cons, ih]
      have h : (if c.state == ChannelState.stopping && !c.exitResult
            then false else acc)
          = (acc && (!(c.state == ChannelState.stopping) || c.exitResult)) := by
        cases hs : c.state == ChannelState.stopping <;>
          cases c.exitResult <;> cases acc <;> simp
      rw [h, Bool.and_assoc]

theorem addSwapBarrierAll_counts (ws : List Window) (b : Nat) :
    ∀ s : BarrierStore,
      (addSwapBarrierAll s ws b).1.counts b = s.counts b + ws.length := by
  induction ws with
  | nil => intro s; simp [addSwapBarrierAll]
  | cons w rest ih =>
      intro s
      simp only [addSwapBarrierAll, ih, Window.addSwapBarrier,
        List.length_cons]
      simp
      omega

theorem count_commit_map (l : List Nat) (b : Nat) :
    (l.map SwapEvent.commit).count (SwapEvent.commit b) = l.count b := by
  induction l with
  | nil => rfl
  | cons a rest ih => simp [List.count_cons, ih]

theorem countP_barrier_map (l : List Nat) (v : Nat → Nat) (b : Nat) :
    (l.map fun b' => SwapEvent.packet (WPacket.barrier b' (v b'))).countP
        (isBarrierPacket b)
      = l.count b := by
  induction l with
  | nil => rfl
  | cons a rest ih =>
      simp [List.countP_cons, List.count_cons, ih, isBarrierPacket]

theorem packetsOf_commits (l : List Nat) :
    packetsOf (l.map SwapEvent.commit) = [] := by
  induction l with
  | nil => rfl
  | cons a rest ih =>
      have h : packetsOf (SwapEvent.commit a :: rest.map SwapEvent.commit)
          = packetsOf (rest.map SwapEvent.commit) := by
        simp [packetsOf]
      rw [List.map_cons, h, ih]

/-! ## Theorems for the specification claims -/

/-- C1: `Window::syncInit` returns true exactly when every used channel's
`syncInit` returned true and the window's own pending init request was
served with success, and exactly on success the state becomes
STATE_RUNNING (otherwise it is left as it was); `Window::syncExit` returns
false whenever a stopping channel's `syncExit` returned false or the
window's own exit request was served with failure. -/
theorem window_sync_propagates_child_failure (w : Window)
    (ownInit ownExit : Bool) :
    ((w.syncInit ownInit).1
        = ((w.channels.all fun c => !c.used || c.initResult) && ownInit))
  ∧ ((w.syncInit ownInit).2.state
        = if (w.syncInit ownInit).1 then WindowState.running else w.state)
  ∧ ((w.syncExit ownExit).1
        = (ownExit && w.channels.all fun c =>
            !(c.state == ChannelState.stopping) || c.exitResult)) := by
  refine ⟨?_, ?_, ?_⟩
  · simp only [Window.syncInit, foldl_and_init, Bool.true_and]
    split <;> simp_all
  · simp only [Window.syncInit, foldl_and_init, Bool.true_and]
    split <;> simp_all
  · simp only [Window.syncExit, foldl_and_exit]

/-- C8: `Node::checkConnection` answers true immediately and without state
change when connected or listening, attempts a full `connect()` exactly
when stopped, and answers false without attempting a connection when
launched. -/
theorem checkConnection_state_dispatch (ok : Bool) :
    (checkConnection NodeState.connected ok
        = (true, NodeState.connected, false))
  ∧ (checkConnection NodeState.listening ok
        = (true, NodeState.listening, false))
  ∧ (checkConnection NodeState.stopped ok
        = ((nodeConnect NodeState.stopped ok).1,
           (nodeConnect NodeState.stopped ok).2, true))
  ∧ (checkConnection NodeState.launched ok
        = (false, NodeState.launched, false)) := by
  cases ok <;> simp [checkConnection, nodeConnect]

/-- C4: `Node::send(packet)` succeeds if and only if connectivity could be
ensured and the connection-level send wrote exactly the packet's size; the
payload variants succeed if and only if connectivity could be ensured and
the connection-level send wrote at least the packet's size. -/
theorem node_send_size_checked (st : NodeState) (ok : Bool)
    (written size : Nat) :
    ((nodeSend st ok written size).1 = true ↔
       (checkConnection st ok).1 = true ∧ written = size)
  ∧ ((nodeSendPayload st ok written size).1 = true ↔
       (checkConnection st ok).1 = true ∧ written ≥ size) := by
  cases st <;> cases ok <;>
    simp [nodeSend, nodeSendPayload, checkConnection, nodeConnect]

/-- C5: `Node::connect` ends in STATE_CONNECTED when it returns true and
leaves the state unchanged when it returns false; `initConnect` on success
ends launched or connected, `syncConnect` on success ends connected, and
both leave the state unchanged on failure. -/
theorem node_connect_state_transitions (st : NodeState) (ok sok : Bool)
    (outcome : Option Bool) :
    ((nodeConnect st ok).1 = true →
        (nodeConnect st ok).2 = NodeState.connected)
  ∧ ((nodeConnect st ok).1 = false → (nodeConnect st ok).2 = st)
  ∧ ((nodeInitConnect st outcome).1 = true →
        (nodeInitConnect st outcome).2 = NodeState.launched ∨
        (nodeInitConnect st outcome).2 = NodeState.connected)
  ∧ ((nodeInitConnect st outcome).1 = false →
        (nodeInitConnect st outcome).2 = st)
  ∧ ((nodeSyncConnect st sok).1 = true →
        (nodeSyncConnect st sok).2 = NodeState.connected)
  ∧ ((nodeSyncConnect st sok).1 = false →
        (nodeSyncConnect st sok).2 = st) := by
  cases ok <;> cases sok <;> rcases outcome with _ | _ | _ <;>
    simp [nodeConnect, nodeInitConnect, nodeSyncConnect]

/-- Witness for C5 at concrete states and outcomes. -/
theorem node_connect_state_transitions_check :
    (nodeConnect NodeState.stopped true).2 = NodeState.connected ∧
    (nodeConnect NodeState.stopped false).2 = NodeState.stopped ∧
    ((nodeInitConnect NodeState.stopped (some false)).2 = NodeState.launched ∨
     (nodeInitConnect NodeState.stopped (some false)).2 =
       NodeState.connected) := by
  have h := node_connect_state_transitions NodeState.stopped true true
    (some false)
  have h2 := node_connect_state_transitions NodeState.stopped false true
    (some false)
  exact ⟨h.1 rfl, h2.2.1 rfl, h.2.2.1 rfl⟩

/-- C7: in `Channel::frameClear` (debug build), with EQ_TAINT_CHANNELS set
and the channel not the destination of the current view, the clear colour
is the channel's unique colour; with it unset the colour is black, except
that the destination channel of the current view always clears grey. -/
theorem frameClear_taint_colour (hasView : Bool)
    (viewID currentViewID : Nat) (taint : Bool) (ur ug ub : Nat) :
    ((hasView && currentViewID == viewID) = false → taint = true →
        frameClearColor hasView viewID currentViewID taint ur ug ub
          = ⟨(ur : Rat)/255, (ug : Rat)/255, (ub : Rat)/255, 1⟩)
  ∧ (taint = false →
        frameClearColor hasView viewID currentViewID taint ur ug ub
          = if hasView && currentViewID == viewID then ⟨2/5, 2/5, 2/5, 1⟩
            else ⟨0, 0, 0, 1⟩)
  ∧ ((hasView && currentViewID == viewID) = true →
        frameClearColor hasView viewID currentViewID taint ur ug ub
          = ⟨2/5, 2/5, 2/5, 1⟩) := by
  refine ⟨?_, ?_, ?_⟩ <;> intro h
  · intro ht; simp [frameClearColor, h, ht]
  · cases hv : hasView && currentViewID == viewID <;>
      simp [frameClearColor, h, hv]
  · simp [frameClearColor, h]

/-- Witness for C7 on a concrete channel configuration. -/
theorem frameClear_taint_colour_check :
    frameClearColor false 0 0 true 255 0 0 = ⟨1, 0, 0, 1⟩ ∧
    frameClearColor true 3 3 false 255 0 0 = ⟨2/5, 2/5, 2/5, 1⟩ := by
  constructor
  · have h := (frameClear_taint_colour false 0 0 true 255 0 0).1
      (by decide) rfl
    rw [h]; norm_num
  · have h := (frameClear_taint_colour true 3 3 false 255 0 0).2.2 (by decide)
    rw [h]

/-- C10: RefPtr assignment is neutral on an already-held pointer (no
pointee call at all), otherwise the new pointee is referenced before the
previous one is unreferenced; after any assignment the held pointer is the
assigned one, reference counts change exactly by the expected deltas, and
repeating the same assignment is idempotent and silent. -/
theorem refPtr_assign_reference_safe (cur rhs : Option Nat)
    (counts : Nat → Int) (x : Nat) :
    ((refPtrAssign cur cur).2 = [])
  ∧ ((refPtrAssign cur rhs).1 = rhs)
  ∧ ((refPtrAssign cur rhs).2.filter RefEvent.isRef
       ++ (refPtrAssign cur rhs).2.filter (fun e => !e.isRef)
       = (refPtrAssign cur rhs).2)
  ∧ (refPtrAssign (refPtrAssign cur rhs).1 rhs = (rhs, []))
  ∧ (applyRefEvents counts (refPtrAssign cur rhs).2 x
       = counts x + (if cur ≠ rhs ∧ rhs = some x then 1 else 0)
                  - (if cur ≠ rhs ∧ cur = some x then 1 else 0)) := by
  refine ⟨by simp [refPtrAssign], ?_, ?_, ?_, ?_⟩
  · by_cases h : cur = rhs <;> simp [refPtrAssign, h]
  · by_cases h : cur = rhs <;>
      rcases cur with _ | p <;> rcases rhs with _ | q <;>
      simp_all [refPtrAssign, RefEvent.isRef]
  · by_cases h : cur = rhs <;> simp [refPtrAssign, h]
  · rcases cur with _ | p <;> rcases rhs with _ | q
    · simp [refPtrAssign, applyRefEvents]
    · simp [refPtrAssign, applyRefEvents]
      split_ifs <;> simp_all
    · simp [refPtrAssign, applyRefEvents]
      split_ifs <;> simp_all
    · by_cases h : p = q
      · subst h; simp [refPtrAssign, applyRefEvents]
      · have hne : (some p : Option Nat) ≠ some q := by simp [h]
        simp [refPtrAssign, hne, applyRefEvents]
        split_ifs <;> try subst_vars
        all_goals omega

/-- C3: `Window::addSwapBarrier` increments the barrier's participant
count by exactly one (leaving every other barrier's count untouched) and
appends the barrier to the window's inbound list; `Window::newSwapBarrier`
records the fresh barrier as a master barrier and immediately adds the
creating window, so the new barrier's count is 1; adding the same barrier
to the remaining windows of a swap group of size `ws.length + 1` leaves
its participant count equal to the group size. -/
theorem swap_barrier_participant_count (s : BarrierStore) (w w0 : Window)
    (b : Nat) (ws : List Window) :
    ((w.addSwapBarrier s b).1.counts b = s.counts b + 1)
  ∧ (∀ b', b' ≠ b → (w.addSwapBarrier s b).1.counts b' = s.counts b')
  ∧ ((w.addSwapBarrier s b).2.swapBarriers = w.swapBarriers ++ [b])
  ∧ ((w0.newSwapBarrier s).2.1.masterSwapBarriers
        = w0.masterSwapBarriers ++ [(w0.newSwapBarrier s).2.2])
  ∧ ((w0.newSwapBarrier s).2.1.swapBarriers
        = w0.swapBarriers ++ [(w0.newSwapBarrier s).2.2])
  ∧ ((w0.newSwapBarrier s).1.counts (w0.newSwapBarrier s).2.2 = 1)
  ∧ (∀ s' : BarrierStore,
        (addSwapBarrierAll s' ws b).1.counts b = s'.counts b + ws.length)
  ∧ ((addSwapBarrierAll (w0.newSwapBarrier s).1 ws
        (w0.newSwapBarrier s).2.2).1.counts (w0.newSwapBarrier s).2.2
      = ws.length + 1) := by
  refine ⟨?_, ?_, ?_, ?_, ?_, ?_, fun s' => addSwapBarrierAll_counts ws b s',
    ?_⟩
  · simp [Window.addSwapBarrier]
  · intro b' hb; simp [Window.addSwapBarrier, hb]
  · simp [Window.addSwapBarrier]
  · simp [Window.newSwapBarrier, Window.addSwapBarrier,
      BarrierStore.getBarrier]
  · simp [Window.newSwapBarrier, Window.addSwapBarrier,
      BarrierStore.getBarrier]
  · simp [Window.newSwapBarrier, Window.addSwapBarrier,
      BarrierStore.getBarrier]
  · rw [addSwapBarrierAll_counts]
    simp [Window.newSwapBarrier, Window.addSwapBarrier,
      BarrierStore.getBarrier]
    omega

/-- Witness for C3 on a concrete store, barrier and windows. -/
theorem swap_barrier_participant_count_check :
    (Window.addSwapBarrier
        ⟨"w", ⟨0, 0, 1, 1⟩, ⟨0, 0, 1, 1⟩, none, 0, WindowState.running,
          none, [], [], []⟩
        ⟨fun _ => 0, fun _ => 0, 0⟩ 5).1.counts 4
      = 0 := by
  exact (swap_barrier_participant_count ⟨fun _ => 0, fun _ => 0, 0⟩
    ⟨"w", ⟨0, 0, 1, 1⟩, ⟨0, 0, 1, 1⟩, none, 0, WindowState.running, none,
      [], [], []⟩
    ⟨"w", ⟨0, 0, 1, 1⟩, ⟨0, 0, 1, 1⟩, none, 0, WindowState.running, none,
      [], [], []⟩
    5 []).2.1 4 (by decide)

/-- C2: in every per-frame `Window::update`, all master-barrier commits
and one WINDOW_BARRIER packet per inbound swap barrier happen strictly
before the single WINDOW_SWAP packet; when the inbound swap-barrier list
is empty, `_updateSwap` sends neither WINDOW_FINISH nor WINDOW_BARRIER —
its only packet is WINDOW_SWAP. -/
theorem window_update_barriers_before_swap (w : Window) (s : BarrierStore)
    (f n : Nat) :
    (∃ before,
      (w.update s f n).2
        = before ++ [SwapEvent.packet WPacket.swap,
                     SwapEvent.packet (WPacket.endFrame f)]
      ∧ (∀ b, before.count (SwapEvent.commit b)
            = w.masterSwapBarriers.count b)
      ∧ (∀ b, before.countP (isBarrierPacket b) = w.swapBarriers.count b)
      ∧ SwapEvent.packet WPacket.swap ∉ before)
  ∧ packetsOf (Window.updateSwap { w with swapBarriers := [] } s).2
      = [WPacket.swap] := by
  constructor
  · refine ⟨SwapEvent.packet (WPacket.startFrame f (decide (n > 1)))
      :: ((w.channels.filter fun c => c.used).map fun c =>
            SwapEvent.packet (WPacket.channelUpdate c.id f))
      ++ w.masterSwapBarriers.map SwapEvent.commit
      ++ (if w.swapBarriers = [] then []
          else [SwapEvent.packet WPacket.finish])
      ++ w.swapBarriers.map (fun b => SwapEvent.packet (WPacket.barrier b
            ((w.masterSwapBarriers.foldl BarrierStore.commit s).versions
              b))), ?_, ?_, ?_, ?_⟩
    · simp [Window.update, Window.updateSwap]
    · intro b
      have h1 : ((w.channels.filter fun c => c.used).map fun c =>
            SwapEvent.packet (WPacket.channelUpdate c.id f)).count
              (SwapEvent.commit b) = 0 := by
        apply List.count_eq_zero.mpr
        intro hmem
        simp only [List.mem_map] at hmem
        obtain ⟨c, _, hc⟩ := hmem
        cases hc
      have h2 : (if w.swapBarriers = ([] : List Nat) then []
          else [SwapEvent.packet WPacket.finish]).count
            (SwapEvent.commit b) = 0 := by
        split <;> simp
      have h3 : (w.swapBarriers.map fun b' =>
            SwapEvent.packet (WPacket.barrier b'
              ((w.masterSwapBarriers.foldl BarrierStore.commit s).versions
                b'))).count (SwapEvent.commit b) = 0 := by
        apply List.count_eq_zero.mpr
        intro hmem
        simp only [List.mem_map] at hmem
        obtain ⟨a, _, ha⟩ := hmem
        cases ha
      simp [List.count_cons, List.count_append, h1, h2, h3,
        count_commit_map]
    · intro b
      have h1 : ((w.channels.filter fun c => c.used).map fun c =>
            SwapEvent.packet (WPacket.channelUpdate c.id f)).countP
              (isBarrierPacket b) = 0 := by
        apply List.countP_eq_zero.mpr
        intro e he
        simp only [List.mem_map] at he
        obtain ⟨c, _, rfl⟩ := he
        simp [isBarrierPacket]
      have h2 : (w.masterSwapBarriers.map SwapEvent.commit).countP
            (isBarrierPacket b) = 0 := by
        apply List.countP_eq_zero.mpr
        intro e he
        simp only [List.mem_map] at he
        obtain ⟨a, _, rfl⟩ := he
        simp [isBarrierPacket]
      have h3 : (if w.swapBarriers = ([] : List Nat) then []
          else [SwapEvent.packet WPacket.finish]).countP
            (isBarrierPacket b) = 0 := by
        split <;> simp [isBarrierPacket]
      have h4 := countP_barrier_map w.swapBarriers
        (fun b' => (w.masterSwapBarriers.foldl BarrierStore.commit
          s).versions b') b
      have h0 : isBarrierPacket b
          (SwapEvent.packet (WPacket.startFrame f (decide (n > 1))))
            = false := by
        simp [isBarrierPacket]
      simp [List.countP_cons, List.countP_append, h0, h1, h2, h3, h4]
    · intro hmem
      by_cases he : w.swapBarriers = [] <;> simp [he] at hmem
  · simp [Window.updateSwap, packetsOf, packetsOf_commits]

/-- C9: `Window::setPixelViewport` and `Window::setViewport` leave the
window untouched on an invalid argument; on a valid argument they install
it, invalidate the other viewport, recompute that other viewport from the
pipe's pixel viewport exactly when the window has a pipe whose pixel
viewport is valid, and change no other window field. -/
theorem window_set_viewport_effects (w : Window) (pvp : PixelViewport)
    (vp : Viewport) :
    (pvp.isValid = false → w.setPixelViewport pvp = w)
  ∧ (pvp.isValid = true →
      (w.setPixelViewport pvp).pvp = pvp
      ∧ (w.setPixelViewport pvp).vp
          = (match w.pipe with
             | none => w.vp.invalidate
             | some pipePVP =>
                 if pipePVP.isValid then pvpDiv pvp pipePVP
                 else w.vp.invalidate)
      ∧ Window.sameButViewports w (w.setPixelViewport pvp))
  ∧ (vp.isValid = false → w.setViewport vp = w)
  ∧ (vp.isValid = true →
      (w.setViewport vp).vp = vp
      ∧ (w.setViewport vp).pvp
          = (match w.pipe with
             | none => w.pvp.invalidate
             | some pipePVP =>
                 if pipePVP.isValid then
                   pvpMul { pipePVP with x := 0, y := 0 } vp
                 else w.pvp.invalidate)
      ∧ Window.sameButViewports w (w.setViewport vp)) := by
  refine ⟨?_, ?_, ?_, ?_⟩
  · intro h; simp [Window.setPixelViewport, h]
  · intro h
    refine ⟨?_, ?_, ?_⟩ <;>
      cases hp : w.pipe with
      | none =>
          simp [Window.setPixelViewport, h, hp, Window.sameButViewports]
      | some pipePVP =>
          by_cases hv : pipePVP.isValid <;>
            simp [Window.setPixelViewport, h, hp, hv,
              Window.sameButViewports]
  · intro h; simp [Window.setViewport, h]
  · intro h
    refine ⟨?_, ?_, ?_⟩ <;>
      cases hp : w.pipe with
      | none =>
          simp [Window.setViewport, h, hp, Window.sameButViewports]
      | some pipePVP =>
          by_cases hv : pipePVP.isValid <;>
            simp [Window.setViewport, h, hp, hv, Window.sameButViewports]

/-- Witness for C9 on a concrete window: an invalid pixel viewport is
ignored, a valid one is installed. -/
theorem window_set_viewport_effects_check :
    (Window.setPixelViewport
        ⟨"w", ⟨0, 0, 640, 480⟩, ⟨0, 0, 1, 1⟩, some ⟨0, 0, 1280, 1024⟩, 0,
          WindowState.stopped, none, [], [], []⟩ ⟨0, 0, -1, -1⟩
      = ⟨"w", ⟨0, 0, 640, 480⟩, ⟨0, 0, 1, 1⟩, some ⟨0, 0, 1280, 1024⟩, 0,
          WindowState.stopped, none, [], [], []⟩)
  ∧ (Window.setPixelViewport
        ⟨"w", ⟨0, 0, 640, 480⟩, ⟨0, 0, 1, 1⟩, some ⟨0, 0, 1280, 1024⟩, 0,
          WindowState.stopped, none, [], [], []⟩ ⟨0, 0, 320, 200⟩).pvp
      = ⟨0, 0, 320, 200⟩ := by
  constructor
  · exact (window_set_viewport_effects
      ⟨"w", ⟨0, 0, 640, 480⟩, ⟨0, 0, 1, 1⟩, some ⟨0, 0, 1280, 1024⟩, 0,
        WindowState.stopped, none, [], [], []⟩
      ⟨0, 0, -1, -1⟩ ⟨0, 0, 1, 1⟩).1 (by decide)
  · exact ((window_set_viewport_effects
      ⟨"w", ⟨0, 0, 640, 480⟩, ⟨0, 0, 1, 1⟩, some ⟨0, 0, 1280, 1024⟩, 0,
        WindowState.stopped, none, [], [], []⟩
      ⟨0, 0, 320, 200⟩ ⟨0, 0, 1, 1⟩).2.1 (by decide)).1

/-- C6: with the channel range `[0,1)` (Range::ALL) the traversal's
completely-out-of-range test excludes no node of the model tree (whose
ranges satisfy the tree invariant `lo < 1` and `0 ≤ hi`); with an empty
range `[a,a)` the traversal renders no node at all, from any candidate
stack. -/
theorem drawModel_range_boundaries :
    (∀ lo hi : Rat, 0 ≤ hi → lo < 1 →
        rangeExcluded lo hi MRange.ALL = false)
  ∧ (∀ (a : Rat) (stack : List VBNode), drawLoop ⟨a, a⟩ stack = []) := by
  constructor
  · intro lo hi h0 h1
    simp only [rangeExcluded, MRange.ALL, decide_eq_false_iff_not, not_or,
      not_lt, not_le]
    exact ⟨h1, h0⟩
  · intro a
    have hALL : (⟨a, a⟩ : MRange) ≠ MRange.ALL := by
      intro hEq
      have ha0 : a = 0 := congrArg MRange.start hEq
      have ha1 : a = 1 := congrArg MRange.stop hEq
      rw [ha0] at ha1
      norm_num at ha1
    have main : ∀ n (stack : List VBNode), stackWeight stack ≤ n →
        drawLoop ⟨a, a⟩ stack = [] := by
      intro n
      induction n with
      | zero =>
          intro stack h
          cases stack with
          | nil => simp [drawLoop]
          | cons t rest =>
              have := t.one_le_weight
              simp [stackWeight] at h
              omega
      | succ n ih =>
          intro stack h
          cases stack with
          | nil => simp [drawLoop]
          | cons t rest =>
              cases t with
              | node i lo hi vis l rt =>
                have hw : stackWeight rest ≤ n := by
                  have h1 := (VBNode.node i lo hi vis l rt).one_le_weight
                  simp only [stackWeight] at h
                  omega
                by_cases hex : rangeExcluded lo hi ⟨a, a⟩ = true
                · rw [drawLoop.eq_def]
                  simp [hex, ih rest hw]
                · have hin : lo < a ∧ a ≤ hi := by
                    simp only [rangeExcluded, decide_eq_true_eq, not_or,
                      not_le, not_lt] at hex
                    exact ⟨hex.1, hex.2⟩
                  have hcond :
                      ¬((⟨a, a⟩ : MRange) = MRange.ALL ∨
                        (lo ≥ (⟨a, a⟩ : MRange).start ∧
                         hi < (⟨a, a⟩ : MRange).stop)) := by
                    rintro (hc | hc)
                    · exact hALL hc
                    · exact absurd hc.1 (not_le.mpr hin.1)
                  have hchild : stackWeight (optToStack rt ++ optToStack l
                      ++ rest) ≤ n := by
                    have hlt := stackWeight_children_lt i lo hi vis l rt rest
                    omega
                  cases vis <;> cases l <;> cases rt <;>
                    rw [drawLoop.eq_def] <;>
                    simp [hex, hALL, hcond, not_le.mpr hin.1,
                      ih rest hw, ih _ hchild] <;>
                    (rw [← List.append_assoc]; exact ih _ hchild)
    intro stack
    exact main (stackWeight stack) stack le_rfl

/-- Witness for C6: a concrete in-range node is not excluded under
Range::ALL, and a concrete traversal over an empty range renders
nothing. -/
theorem drawModel_range_boundaries_check :
    rangeExcluded 0 (1/2) MRange.ALL = false ∧
    drawLoop ⟨1/2, 1/2⟩
        [VBNode.node 0 0 1 Visibility.full none none] = [] := by
  constructor
  · exact drawModel_range_boundaries.1 0 (1/2) (by norm_num) (by norm_num)
  · exact drawModel_range_boundaries.2 (1/2)
      [VBNode.node 0 0 1 Visibility.full none none]

end Equalizer
